import Mathlib

/-!
# Verification of DepthEstimationModelWithCLI

Shallow embedding of the repository `gokayysirin/DepthEstimationModel`
(files `upload.py`, `predictor.py`, `api.py`, `cli.py`) and proofs about
the claims of its specification.

External effects (HTTP calls to the ImgBB service, the filesystem, the
pretrained model) are modelled by explicit environment records whose
fields give the outcome of each external interaction; the Python control
flow over those outcomes is translated statement by statement.
-/

namespace DepthEstimation

/-! ## Python string primitives

`str.replace`, `str.split`, `os.path.splitext` and `str.lower` as used by
the repository, modelled over `List Char`. -/

/-- Python `s.replace(pat, repl)` over character lists, for a nonempty
pattern: the leftmost non-overlapping occurrences of `pat` are each
replaced by `repl`.  Mirrors the scan CPython performs. -/
def replaceList (pat repl : List Char) : List Char → List Char
  | [] => []
  | c :: rest =>
      if pat.isPrefixOf (c :: rest) then
        repl ++ replaceList pat repl (rest.drop (pat.length - 1))
      else
        c :: replaceList pat repl rest
termination_by l => l.length
decreasing_by
  all_goals simp [List.length_drop]
  omega

/-- Python `s.split(pat)` over character lists, for a nonempty pattern:
the maximal pattern-free pieces between the leftmost non-overlapping
occurrences of `pat`. -/
def splitList (pat : List Char) : List Char → List (List Char)
  | [] => [[]]
  | c :: rest =>
      if pat.isPrefixOf (c :: rest) then
        [] :: splitList pat (rest.drop (pat.length - 1))
      else
        match splitList pat rest with
        | [] => [[c]]
        | h :: t => (c :: h) :: t
termination_by l => l.length
decreasing_by
  all_goals simp [List.length_drop]
  omega

/-- Python `sep.join(pieces)` over character lists. -/
def joinWith (sep : List Char) : List (List Char) → List Char
  | [] => []
  | [a] => a
  | a :: rest => a ++ sep ++ joinWith sep rest

/-- Whether `pat` occurs as a contiguous subsequence of `l`
(Python `pat in l` for strings). -/
def containsSeq (pat : List Char) : List Char → Bool
  | [] => pat.isEmpty
  | c :: rest => pat.isPrefixOf (c :: rest) || containsSeq pat rest

/-- Python `str.lower` restricted to ASCII letters (the only characters
the repository lowercases are filename extensions). -/
def pyLowerChar (c : Char) : Char :=
  if 'A' ≤ c ∧ c ≤ 'Z' then Char.ofNat (c.toNat + 32) else c

/-- Python `s.rfind(c)`: index of the last occurrence of `c`, `-1` when
absent. -/
def pyRfind (c : Char) (l : List Char) : Int :=
  match List.findIdx? (fun x => x == c) l.reverse with
  | some i => ((l.length - 1 - i : Nat) : Int)
  | none => -1

/-- The extension part of CPython `posixpath.splitext`: the suffix from
the last dot, provided that dot lies after the last `/` and at least one
non-dot character precedes it within the basename; empty otherwise. -/
def splitextExt (p : List Char) : List Char :=
  let sepIndex := pyRfind '/' p
  let dotIndex := pyRfind '.' p
  if sepIndex < dotIndex then
    let filenameStart := (sepIndex + 1).toNat
    let base := (p.drop filenameStart).take (dotIndex.toNat - filenameStart)
    if base.any (fun c => c != '.') then p.drop dotIndex.toNat else []
  else []

/-- `os.path.splitext(filename)[1].lower()` as used by `api.predict`. -/
def fileExtLower (filename : String) : String :=
  String.mk ((splitextExt filename.data).map pyLowerChar)

/-! ## `upload.py` -/

/-- Outcome of one HTTP upload attempt against the ImgBB endpoint, as
distinguished by the branches of `upload_image` /
`upload_image_multipart_fallback`:
* `ok url`: status 200, body parsed, `success` true, `data.url` present;
* `httpError status text`: non-200 status;
* `apiError code msg`: status 200, `success` false, `error` field present;
* `apiFailNoError body`: status 200, `success` false, no `error` field;
* `requestExc msg`: `requests` raised a `requests.exceptions.RequestException`
  (network errors; in modern `requests` also JSON-decode failures);
* `otherExc msg`: any other exception was raised during the attempt. -/
inductive UploadAttemptResult where
  | ok (url : String)
  | httpError (status : Nat) (text : String)
  | apiError (code : String) (msg : String)
  | apiFailNoError (body : String)
  | requestExc (msg : String)
  | otherExc (msg : String)
deriving DecidableEq, Repr

/-- `r` is anything but a successful attempt. -/
def UploadAttemptResult.isFail : UploadAttemptResult → Bool
  | .ok _ => false
  | _ => true

/-- `r` is a failed attempt whose exception is not a
`requests.exceptions.RequestException`. -/
def UploadAttemptResult.isNonNetworkFail : UploadAttemptResult → Bool
  | .ok _ => false
  | .requestExc _ => false
  | _ => true

/-- Environment of an `upload_image` call: whether the image file exists
at the given path, the resolved `IMG_API_KEY` environment variable, and
the outcomes the ImgBB service would produce for the base64 form attempt
(`attemptA`) and the multipart attempt (`attemptB`). -/
structure NetEnv where
  fileExists : Bool
  apiKey : Option String
  attemptA : UploadAttemptResult
  attemptB : UploadAttemptResult
deriving DecidableEq, Repr

/-- `upload.get_api_key`: reads `IMG_API_KEY`; a missing or empty value
(Python `if not api_key`) raises `ValueError`. -/
def get_api_key (apiKey : Option String) : Except String String :=
  match apiKey with
  | none => .error "IMG_API_KEY not found in .env file"
  | some k =>
      if k = "" then .error "IMG_API_KEY not found in .env file" else .ok k

/-- Exceptions distinguished by the handler clauses of `upload_image`. -/
inductive PyExc where
  | requestException (msg : String)
  | exception (msg : String)
deriving DecidableEq, Repr

/-- The body of the `try` block of `upload_image` (base64 strategy):
returns the URL or raises, with the exception message each branch of the
source builds. -/
def runAttemptA : UploadAttemptResult → Except PyExc String
  | .ok url => .ok url
  | .httpError status text =>
      .error (.exception ("HTTP Error " ++ toString status ++ ": " ++ text))
  | .apiError code msg =>
      .error (.exception ("ImgBB API Error [" ++ code ++ "]: " ++ msg))
  | .apiFailNoError body =>
      .error (.exception ("Upload failed: " ++ body))
  | .requestExc msg => .error (.requestException msg)
  | .otherExc msg => .error (.exception msg)

/-- `upload.upload_image_multipart_fallback`: resolves the key again,
then runs the multipart attempt inside a single `except Exception`
handler that wraps every failure (network failures included) into one
`Both upload methods failed` exception. -/
def upload_image_multipart_fallback (env : NetEnv) (image_path : String) :
    Except String String :=
  match get_api_key env.apiKey with
  | .error m => .error m
  | .ok _ =>
      if !env.fileExists then
        .error ("Both upload methods failed: [Errno 2] No such file or directory: "
          ++ image_path)
      else
        match env.attemptB with
        | .ok url => .ok url
        | .httpError status text =>
            .error ("Both upload methods failed: HTTP Error "
              ++ toString status ++ ": " ++ text)
        | .apiError _ msg =>
            .error ("Both upload methods failed: ImgBB API Error: " ++ msg)
        | .apiFailNoError body =>
            .error ("Both upload methods failed: Upload failed: " ++ body)
        | .requestExc msg =>
            .error ("Both upload methods failed: " ++ msg)
        | .otherExc msg =>
            .error ("Both upload methods failed: " ++ msg)

/-- `upload.upload_image`: file-existence check, key resolution, then the
base64 strategy.  Python routes an exception from the `try` body to the
first matching handler only, and an exception raised inside a handler
propagates without being seen by the later handlers of the same `try`:
a `RequestException` therefore becomes `Network error: ...` immediately,
while every other exception reaches `except Exception`, which calls the
multipart fallback. -/
def upload_image (env : NetEnv) (image_path : String) : Except String String :=
  if !env.fileExists then
    .error ("Image file not found: " ++ image_path)
  else
    match get_api_key env.apiKey with
    | .error m => .error m
    | .ok _ =>
        match runAttemptA env.attemptA with
        | .ok url => .ok url
        | .error (.requestException m) => .error ("Network error: " ++ m)
        | .error (.exception _) => upload_image_multipart_fallback env image_path

/-! ## `predictor.py` -/

/-- Truncation toward zero, as NumPy `astype` applies to a float before
the integer conversion. -/
def pyTrunc (q : ℚ) : Int :=
  if 0 ≤ q then ⌊q⌋ else -⌊-q⌋

/-- Conversion of a (rational-modelled) float to `np.uint8`: truncate
toward zero, wrap modulo 256. -/
def toUint8 (q : ℚ) : ℕ :=
  ((pyTrunc q) % 256).toNat

/-- `predictor.colorize`.  The depth map is a 2-D grid of (real-valued)
depths, modelled over `ℚ`; `cmap` is the fixed external colormap
`plt.cm.plasma`, a pure scalar-to-RGBA map.  The source divides by
`depth_map.max() - depth_map.min()` with no guard; the embedding makes
that fallibility explicit with `Option`: the result is `none` when the
array is empty (NumPy `min`/`max` raise) or when `max - min = 0` (the
float normalization degenerates to `0/0`, i.e. NaN).  Otherwise each
value is normalized, mapped through the colormap, the alpha channel is
dropped, and each channel is scaled by 255 and cast to `uint8`. -/
def colorize (cmap : ℚ → ℚ × ℚ × ℚ × ℚ) (depth_map : List (List ℚ)) :
    Option (List (List (ℕ × ℕ × ℕ))) :=
  let flat := depth_map.flatten
  match flat.min?, flat.max? with
  | some mn, some mx =>
      if mx - mn = 0 then none
      else
        some (depth_map.map (fun row => row.map (fun v =>
          let t := (v - mn) / (mx - mn)
          let c := cmap t
          (toUint8 (c.1 * 255), toUint8 (c.2.1 * 255), toUint8 (c.2.2.1 * 255)))))
  | _, _ => none

/-- A concrete colormap stand-in (grayscale ramp), used to instantiate
statements about `colorize` at concrete inputs. -/
def sampleCmap (t : ℚ) : ℚ × ℚ × ℚ × ℚ := (t, t, t, 1)

/-- `raw_output_path = output_path.replace(".png", "_raw.npy")` from
`calculate_depthmap` (substring replacement over the whole path). -/
def rawPathOf (output_path : String) : String :=
  String.mk (replaceList ".png".data "_raw.npy".data output_path.data)

/-- Outcomes of the external steps inside `calculate_depthmap`: whether
image loading plus inference succeed, whether the colorized-image write
inside `save_colored_depth` succeeds, and whether `np.save` succeeds. -/
structure DepthEnv where
  inferOk : Bool
  colorSaveOk : Bool
  npySaveOk : Bool
deriving DecidableEq, Repr

/-- `DepthEstimationModel.calculate_depthmap`: returns the result message
(or `none`, since every exception is caught and converted to `None`) and
the list of output files it wrote.  `save_colored_depth` catches its own
exceptions, so a failed colorized write does not abort the raw save; a
failed `np.save` aborts with `None` but leaves any colorized file in
place. -/
def calculate_depthmap (d : DepthEnv) (output_path : String) :
    Option String × List String :=
  if !d.inferOk then (none, [])
  else
    let colorFiles := if d.colorSaveOk then [output_path] else []
    let raw_output_path := rawPathOf output_path
    if d.npySaveOk then
      (some ("Depth map saved to " ++ output_path), colorFiles ++ [raw_output_path])
    else
      (none, colorFiles)

/-! ## `api.py` -/

def MAX_FILE_SIZE : ℕ := 10 * 1024 * 1024

/-- The `ALLOWED_EXTENSIONS` set.  The source stores a Python `set`; only
membership is ever used, so a list with the literal's elements is an
adequate model. -/
def ALLOWED_EXTENSIONS : List String := [".jpg", ".jpeg", ".png", ".bmp", ".tiff"]

/-- A FastAPI `HTTPException` as raised by the endpoints. -/
structure HTTPError where
  status_code : ℕ
  detail : String
deriving DecidableEq, Repr

/-- The JSON document `predict` returns on success (field for field;
`imgbb_upload` is `processing_info.imgbb_upload`). -/
structure ResponseData where
  success : Bool
  message : String
  file_id : String
  original_filename : String
  depth_map_url : String
  download_url : String
  imgbb_upload : String
  imgbb_url : Option String
  external_url_available : Bool
  upload_error : Option String
  raw_data_available : Bool
  raw_data_url : Option String
deriving DecidableEq, Repr

/-- Environment of one `predict` request: whether the model loaded at
startup, the byte length of the uploaded content, the client filename,
the generated `uuid4` token, whether writing the input copy raises an
unexpected exception, the outcomes of the depth-computation steps, and
the outcome of `upload_image` on the output path. -/
structure PredictEnv where
  modelLoaded : Bool
  contentSize : ℕ
  filename : String
  file_id : String
  inputWriteRaises : Bool
  depth : DepthEnv
  upload : Except String String
deriving Repr

/-- Observable outcome of one `predict` request: the HTTP response,
whether the input scratch file was ever created, whether it still exists
after the `finally` block, and the files written to the output
directory. -/
structure PredictOutcome where
  response : Except HTTPError ResponseData
  inputWritten : Bool
  inputExistsAfter : Bool
  outputFiles : List String
deriving Repr

/-- Python truthiness of the optional `imgbb_url` string
(`if imgbb_url:` — `None` and the empty string are falsy). -/
def strTruthy : Option String → Bool
  | none => false
  | some s => s ≠ ""

/-- `api.predict`, translated branch for branch.  The 503 gate precedes
the `try`; the size and extension gates run before the input file is
written; the `finally` block removes the input file (via `cleanup_file`,
which deletes the path when it exists) on every exit path once
`input_path` is set.  The detail string of the 400 response joins the
elements of a Python `set`, whose iteration order is unspecified; the
model fixes one order, and no claim depends on that string. -/
def predict (env : PredictEnv) : PredictOutcome :=
  if !env.modelLoaded then
    { response := .error ⟨503, "Depth estimation model is not available"⟩,
      inputWritten := false, inputExistsAfter := false, outputFiles := [] }
  else if env.contentSize > MAX_FILE_SIZE then
    { response := .error ⟨413, "File too large. Maximum size is 10MB"⟩,
      inputWritten := false, inputExistsAfter := false, outputFiles := [] }
  else
    let file_ext := fileExtLower env.filename
    if file_ext ∉ ALLOWED_EXTENSIONS then
      { response := .error ⟨400,
          "Invalid file type. Allowed types: .jpg, .jpeg, .png, .bmp, .tiff"⟩,
        inputWritten := false, inputExistsAfter := false, outputFiles := [] }
    else
      let output_filename := "output_" ++ env.file_id ++ ".png"
      let output_path := "outputs/" ++ output_filename
      if env.inputWriteRaises then
        { response := .error ⟨500, "An unexpected error occurred: write failed"⟩,
          inputWritten := true, inputExistsAfter := false, outputFiles := [] }
      else
        let depthRun := calculate_depthmap env.depth output_path
        if depthRun.1 = none ∨ output_path ∉ depthRun.2 then
          { response := .error ⟨500, "Depth map generation failed"⟩,
            inputWritten := true, inputExistsAfter := false,
            outputFiles := depthRun.2 }
        else
          let uploadPair : Option String × Option String :=
            match env.upload with
            | .ok u => (some u, none)
            | .error m => (none, some m)
          let imgbb_url := uploadPair.1
          let upload_error_msg := uploadPair.2
          let npy_filename := "output_" ++ env.file_id ++ "_raw.npy"
          let npy_path := "outputs/" ++ npy_filename
          let npyExists := npy_path ∈ depthRun.2
          { response := .ok
              { success := true,
                message := "Depth map generated successfully",
                file_id := env.file_id,
                original_filename := env.filename,
                depth_map_url := "/outputs/" ++ output_filename,
                download_url := "/download/" ++ env.file_id,
                imgbb_upload := if strTruthy imgbb_url then "completed" else "failed",
                imgbb_url := if strTruthy imgbb_url then imgbb_url else none,
                external_url_available := strTruthy imgbb_url,
                upload_error :=
                  if strTruthy imgbb_url then none else upload_error_msg,
                raw_data_available := npyExists,
                raw_data_url :=
                  if npyExists then some ("/outputs/" ++ npy_filename) else none },
            inputWritten := true, inputExistsAfter := false,
            outputFiles := depthRun.2 }

/-- Observable outcome of `cleanup_files`. -/
structure CleanupOutcome where
  success : Bool
  message : String
  files_deleted : ℕ
  pngExistsAfter : Bool
  npyExistsAfter : Bool
deriving DecidableEq, Repr

/-- One `cleanup_file` call on a path that exists or not: afterwards the
path is absent (`os.remove` modelled as succeeding; `cleanup_file`
swallows deletion errors). -/
def cleanup_file (pathExists : Bool) : Bool :=
  if pathExists then false else pathExists

/-- `api.cleanup_files` (the `DELETE /cleanup/{file_id}` handler) on a
filesystem where the token's colorized PNG and raw `.npy` file exist or
not: each present artifact is deleted and counted, and the count is
reported in the message. -/
def cleanup_files (pngExists npyExists : Bool) (file_id : String) :
    CleanupOutcome :=
  let d1 : ℕ := if pngExists then 1 else 0
  let pngAfter := if pngExists then cleanup_file pngExists else pngExists
  let d2 : ℕ := if npyExists then 1 else 0
  let npyAfter := if npyExists then cleanup_file npyExists else npyExists
  { success := true,
    message := "Cleaned up " ++ toString (d1 + d2) ++ " files for " ++ file_id,
    files_deleted := d1 + d2,
    pngExistsAfter := pngAfter,
    npyExistsAfter := npyAfter }

/-! ## Lemmas about the string primitives -/

theorem isPrefixOf_iff_append : ∀ (pat l : List Char),
    pat.isPrefixOf l = true ↔ ∃ u, l = pat ++ u
  | [], l => by simp [List.isPrefixOf]
  | p :: ps, [] => by simp [List.isPrefixOf]
  | p :: ps, c :: cs => by
      simp only [List.isPrefixOf, Bool.and_eq_true, beq_iff_eq,
        isPrefixOf_iff_append ps cs, List.cons_append]
      constructor
      · rintro ⟨rfl, u, rfl⟩
        exact ⟨u, rfl⟩
      · rintro ⟨u, hu⟩
        injection hu with h1 h2
        exact ⟨h1.symm, h2 ▸ ⟨u, rfl⟩⟩

theorem eq_append_drop_of_isPrefixOf {pat l : List Char}
    (h : pat.isPrefixOf l = true) : l = pat ++ l.drop pat.length := by
  obtain ⟨u, rfl⟩ := (isPrefixOf_iff_append pat l).mp h
  rw [List.drop_left]

theorem isPrefixOf_append_right {pat a : List Char} (u : List Char)
    (h : pat.isPrefixOf a = true) : pat.isPrefixOf (a ++ u) = true := by
  obtain ⟨v, rfl⟩ := (isPrefixOf_iff_append pat a).mp h
  exact (isPrefixOf_iff_append _ _).mpr ⟨v ++ u, by simp⟩

theorem drop_cons_of_ne_nil {pat : List Char} (hp : pat ≠ []) (c : Char)
    (rest : List Char) :
    (c :: rest).drop pat.length = rest.drop (pat.length - 1) := by
  cases pat with
  | nil => exact absurd rfl hp
  | cons p ps => simp

theorem splitList_ne_nil (pat l : List Char) : splitList pat l ≠ [] := by
  cases l with
  | nil => simp [splitList]
  | cons c rest =>
      simp only [splitList]
      split
      · simp
      · split <;> simp

theorem joinWith_cons (sep a : List Char) (t : List (List Char)) (ht : t ≠ []) :
    joinWith sep (a :: t) = a ++ sep ++ joinWith sep t := by
  cases t with
  | nil => exact absurd rfl ht
  | cons b t2 => rfl

theorem joinWith_cons_cons (sep : List Char) (c : Char) (h : List Char)
    (t : List (List Char)) :
    joinWith sep ((c :: h) :: t) = c :: joinWith sep (h :: t) := by
  cases t with
  | nil => rfl
  | cons b t2 => simp [joinWith]

/-- The first piece `splitList` produces extends to the whole input. -/
theorem splitList_head_append (pat : List Char) :
    ∀ (n : ℕ) (l : List Char), l.length ≤ n →
      ∃ h t u, splitList pat l = h :: t ∧ l = h ++ u := by
  intro n
  induction n with
  | zero =>
      intro l hl
      have : l = [] := List.length_eq_zero.mp (Nat.le_zero.mp hl)
      subst this
      exact ⟨[], [], [], by simp [splitList], rfl⟩
  | succ n ih =>
      intro l hl
      cases l with
      | nil => exact ⟨[], [], [], by simp [splitList], rfl⟩
      | cons c rest =>
          by_cases hpre : pat.isPrefixOf (c :: rest) = true
          · exact ⟨[], splitList pat (rest.drop (pat.length - 1)), c :: rest,
              by simp [splitList, hpre], rfl⟩
          · obtain ⟨h, t, u, hsplit, happ⟩ :=
              ih rest (by simpa using hl)
            refine ⟨c :: h, t, u, ?_, by simp [happ]⟩
            simp [splitList, hpre, hsplit]

/-- Joining the split pieces with the pattern itself reconstructs the
input: `splitList` decomposes the input along pattern occurrences and
loses nothing. -/
theorem join_splitList (pat : List Char) (hp : pat ≠ []) :
    ∀ (n : ℕ) (l : List Char), l.length ≤ n →
      joinWith pat (splitList pat l) = l := by
  intro n
  induction n with
  | zero =>
      intro l hl
      have : l = [] := List.length_eq_zero.mp (Nat.le_zero.mp hl)
      subst this
      simp [splitList, joinWith]
  | succ n ih =>
      intro l hl
      cases l with
      | nil => simp [splitList, joinWith]
      | cons c rest =>
          by_cases hpre : pat.isPrefixOf (c :: rest) = true
          · have hdec : c :: rest = pat ++ rest.drop (pat.length - 1) := by
              have h1 := eq_append_drop_of_isPrefixOf hpre
              rwa [drop_cons_of_ne_nil hp] at h1
            have hlen : (rest.drop (pat.length - 1)).length ≤ n := by
              simp only [List.length_drop]
              have : rest.length ≤ n := by
                simpa using hl
              omega
            calc joinWith pat (splitList pat (c :: rest))
                = joinWith pat
                    ([] :: splitList pat (rest.drop (pat.length - 1))) := by
                  simp [splitList, hpre]
              _ = pat ++ joinWith pat
                    (splitList pat (rest.drop (pat.length - 1))) := by
                  rw [joinWith_cons _ _ _ (splitList_ne_nil _ _)]
                  simp
              _ = pat ++ rest.drop (pat.length - 1) := by
                  rw [ih _ hlen]
              _ = c :: rest := hdec.symm
          · have hlen : rest.length ≤ n := by
              simpa using hl
            obtain ⟨h, t, u, hsplit, _⟩ :=
              splitList_head_append pat rest.length rest le_rfl
            have hstep : splitList pat (c :: rest) = (c :: h) :: t := by
              simp [splitList, hpre, hsplit]
            rw [hstep, joinWith_cons_cons, ← hsplit, ih _ hlen]

/-- `replaceList` equals: split along the pattern, rejoin with the
replacement.  Together with `join_splitList` and
`splitList_parts_free` this says every occurrence of the pattern is
replaced and nothing else changes. -/
theorem replace_eq_join_splitList (pat repl : List Char) :
    ∀ (n : ℕ) (l : List Char), l.length ≤ n →
      replaceList pat repl l = joinWith repl (splitList pat l) := by
  intro n
  induction n with
  | zero =>
      intro l hl
      have : l = [] := List.length_eq_zero.mp (Nat.le_zero.mp hl)
      subst this
      simp [splitList, replaceList, joinWith]
  | succ n ih =>
      intro l hl
      cases l with
      | nil => simp [splitList, replaceList, joinWith]
      | cons c rest =>
          have hlenr : rest.length ≤ n := by
            simpa using hl
          by_cases hpre : pat.isPrefixOf (c :: rest) = true
          · have hlen : (rest.drop (pat.length - 1)).length ≤ n := by
              simp only [List.length_drop]
              omega
            calc replaceList pat repl (c :: rest)
                = repl ++ replaceList pat repl (rest.drop (pat.length - 1)) := by
                  simp [replaceList, hpre]
              _ = repl ++ joinWith repl
                    (splitList pat (rest.drop (pat.length - 1))) := by
                  rw [ih _ hlen]
              _ = joinWith repl
                    ([] :: splitList pat (rest.drop (pat.length - 1))) := by
                  rw [joinWith_cons _ _ _ (splitList_ne_nil _ _)]
                  simp
              _ = joinWith repl (splitList pat (c :: rest)) := by
                  simp [splitList, hpre]
          · obtain ⟨h, t, u, hsplit, _⟩ :=
              splitList_head_append pat rest.length rest le_rfl
            have hstep : splitList pat (c :: rest) = (c :: h) :: t := by
              simp [splitList, hpre, hsplit]
            have hbody : replaceList pat repl (c :: rest)
                = c :: replaceList pat repl rest := by
              simp [replaceList, hpre]
            rw [hbody, hstep, joinWith_cons_cons, ← hsplit, ih _ hlenr]

/-- No piece produced by `splitList` contains the pattern. -/
theorem splitList_parts_free (pat : List Char) (hp : pat ≠ []) :
    ∀ (n : ℕ) (l : List Char), l.length ≤ n →
      ∀ part ∈ splitList pat l, containsSeq pat part = false := by
  intro n
  induction n with
  | zero =>
      intro l hl part hpart
      have : l = [] := List.length_eq_zero.mp (Nat.le_zero.mp hl)
      subst this
      simp only [splitList, List.mem_singleton] at hpart
      subst hpart
      cases pat with
      | nil => exact absurd rfl hp
      | cons p ps => simp [containsSeq]
  | succ n ih =>
      intro l hl part hpart
      cases l with
      | nil =>
          simp only [splitList, List.mem_singleton] at hpart
          subst hpart
          cases pat with
          | nil => exact absurd rfl hp
          | cons p ps => simp [containsSeq]
      | cons c rest =>
          have hlenr : rest.length ≤ n := by
            simpa using hl
          by_cases hpre : pat.isPrefixOf (c :: rest) = true
          · have hlen : (rest.drop (pat.length - 1)).length ≤ n := by
              simp only [List.length_drop]
              omega
            rw [show splitList pat (c :: rest)
                = [] :: splitList pat (rest.drop (pat.length - 1)) by
              simp [splitList, hpre]] at hpart
            rcases List.mem_cons.mp hpart with hnil | hmem
            · subst hnil
              cases pat with
              | nil => exact absurd rfl hp
              | cons p ps => simp [containsSeq]
            · exact ih _ hlen part hmem
          · obtain ⟨h, t, u, hsplit, happ⟩ :=
              splitList_head_append pat rest.length rest le_rfl
            rw [show splitList pat (c :: rest) = (c :: h) :: t by
              simp [splitList, hpre, hsplit]] at hpart
            rcases List.mem_cons.mp hpart with hhd | hmem
            · subst hhd
              have hch : pat.isPrefixOf (c :: h) = false := by
                by_contra hcon
                have htrue : pat.isPrefixOf (c :: h) = true := by
                  cases hb : pat.isPrefixOf (c :: h) with
                  | false => exact absurd hb hcon
                  | true => rfl
                have : pat.isPrefixOf ((c :: h) ++ u) = true :=
                  isPrefixOf_append_right u htrue
                rw [List.cons_append, ← happ] at this
                exact hpre this
              have hh : containsSeq pat h = false :=
                ih _ hlenr h (hsplit ▸ List.mem_cons_self h t)
              simp [containsSeq, hch, hh]
            · exact ih _ hlenr part (hsplit ▸ List.mem_cons_of_mem h hmem)

/-- When the pattern does not occur in the input, `replaceList` is the
identity. -/
theorem replaceList_id_of_not_contains (pat repl : List Char) :
    ∀ l : List Char, containsSeq pat l = false → replaceList pat repl l = l := by
  intro l
  induction l with
  | nil => intro _; simp [replaceList]
  | cons c rest ih =>
      intro hc
      simp only [containsSeq, Bool.or_eq_false_iff] at hc
      rw [show replaceList pat repl (c :: rest)
          = c :: replaceList pat repl rest by simp [replaceList, hc.1]]
      rw [ih hc.2]

/-- Replacing a pattern appended after text that never contains the
pattern's first character: the single trailing occurrence is replaced. -/
theorem replaceList_append_pat (p : Char) (ps repl : List Char) :
    ∀ a : List Char, (∀ c ∈ a, c ≠ p) →
      replaceList (p :: ps) repl (a ++ p :: ps) = a ++ repl := by
  intro a
  induction a with
  | nil =>
      intro _
      have hpre : (p :: ps).isPrefixOf (p :: ps) = true :=
        (isPrefixOf_iff_append _ _).mpr ⟨[], by simp⟩
      have h1 : replaceList (p :: ps) repl (p :: ps)
          = repl ++ replaceList (p :: ps) repl
              (ps.drop ((p :: ps).length - 1)) := by
        simp [replaceList, hpre]
      simp only [List.nil_append]
      rw [h1]
      simp [replaceList, List.drop_length]
  | cons c a2 ih =>
      intro hc
      have hcp : c ≠ p := hc c (List.mem_cons_self c a2)
      have hpre : (p :: ps).isPrefixOf (c :: (a2 ++ p :: ps)) = false := by
        cases hb : (p :: ps).isPrefixOf (c :: (a2 ++ p :: ps)) with
        | false => rfl
        | true =>
            obtain ⟨u, hu⟩ := (isPrefixOf_iff_append _ _).mp hb
            rw [List.cons_append] at hu
            injection hu with h1 _
            exact absurd h1 hcp
      have hstep : replaceList (p :: ps) repl ((c :: a2) ++ p :: ps)
          = c :: replaceList (p :: ps) repl (a2 ++ p :: ps) := by
        rw [List.cons_append]
        simp [replaceList, hpre]
      rw [hstep, ih (fun x hx => hc x (List.mem_cons_of_mem c hx)),
        List.cons_append]

/-! ## String glue lemmas -/

theorem string_mk_data (s : String) : String.mk s.data = s := by
  cases s
  rfl

theorem string_data_append (a b : String) :
    (a ++ b).data = a.data ++ b.data := by
  cases a
  cases b
  rfl

/-- On an API-style output path `outputs/output_<t>.png` whose token `t`
contains no dot, the substring replacement of `calculate_depthmap`
coincides with replacing the `.png` extension by the `_raw.npy`
suffix. -/
theorem rawPathOf_token (t : String) (ht : ∀ c ∈ t.data, c ≠ '.') :
    rawPathOf ("outputs/output_" ++ t ++ ".png")
      = "outputs/output_" ++ t ++ "_raw.npy" := by
  have hdata : ("outputs/output_" ++ t ++ ".png").data
      = ("outputs/output_".data ++ t.data) ++ ".png".data := by
    rw [string_data_append, string_data_append]
  have hlit : ∀ c ∈ "outputs/output_".data, c ≠ '.' := by decide
  have hall : ∀ c ∈ "outputs/output_".data ++ t.data, c ≠ '.' := by
    intro c hcmem
    rcases List.mem_append.mp hcmem with h1 | h2
    · exact hlit c h1
    · exact ht c h2
  unfold rawPathOf
  rw [hdata, show (".png".data : List Char) = '.' :: ['p', 'n', 'g'] from rfl,
    replaceList_append_pat '.' ['p', 'n', 'g'] "_raw.npy".data _ hall,
    ← string_data_append, ← string_data_append, string_mk_data]

/-! ## Claim theorems -/

/-- **C10**: `calculate_depthmap` derives the raw-array path by substring
replacement of `".png"` over the entire output path, not by replacing
the extension: the derived path is the input split along every
occurrence of `".png"` and rejoined with `"_raw.npy"` (the split pieces
being `".png"`-free and rejoining with `".png"` giving back the input),
and an output path with no `".png"` occurrence is returned unchanged. -/
theorem raw_path_is_substring_replacement (s : String) :
    String.mk (joinWith ".png".data (splitList ".png".data s.data)) = s
  ∧ rawPathOf s
      = String.mk (joinWith "_raw.npy".data (splitList ".png".data s.data))
  ∧ (∀ part ∈ splitList ".png".data s.data,
      containsSeq ".png".data part = false)
  ∧ (containsSeq ".png".data s.data = false → rawPathOf s = s) := by
  have hp : (".png".data : List Char) ≠ [] := by decide
  refine ⟨?_, ?_, ?_, ?_⟩
  · rw [join_splitList ".png".data hp s.data.length s.data le_rfl,
      string_mk_data]
  · unfold rawPathOf
    rw [replace_eq_join_splitList ".png".data "_raw.npy".data
      s.data.length s.data le_rfl]
  · exact splitList_parts_free ".png".data hp s.data.length s.data le_rfl
  · intro hc
    unfold rawPathOf
    rw [replaceList_id_of_not_contains ".png".data "_raw.npy".data s.data hc,
      string_mk_data]

theorem raw_path_is_substring_replacement_witness :
    containsSeq ".png".data "out.jpg".data = false
  ∧ rawPathOf "out.jpg" = "out.jpg" :=
  ⟨by decide, (raw_path_is_substring_replacement "out.jpg").2.2.2 (by decide)⟩

/-- **C1** counterexample: with a valid key and an existing file, a
`RequestException` (network error) during the base64 strategy does NOT
fall through to the multipart strategy: `upload_image` raises
`Network error: ...` even though the multipart strategy would have
succeeded on the same environment. -/
theorem upload_network_error_skips_fallback_cex :
    upload_image ⟨true, some "k", .requestExc "connection refused",
        .ok "https://i.ibb.co/ok.png"⟩ "img.png"
      = .error "Network error: connection refused"
    ∧ upload_image_multipart_fallback ⟨true, some "k",
        .requestExc "connection refused", .ok "https://i.ibb.co/ok.png"⟩
        "img.png"
      = .ok "https://i.ibb.co/ok.png" := by
  constructor <;> rfl

/-- **C1** (amended): with an existing file and a resolvable key, any
non-network exception during the base64 strategy (non-200 status,
API-reported failure, malformed-response or other non-`RequestException`
errors) falls through to the multipart strategy; a network-layer
`RequestException` instead aborts immediately with a `Network error`
failure and the multipart strategy is never attempted; and when the
multipart strategy also fails, `upload_image` raises the single combined
`Both upload methods failed` error. -/
theorem upload_fallback_discipline (env : NetEnv) (image_path m : String)
    (hf : env.fileExists = true)
    (hk : ∃ k, get_api_key env.apiKey = .ok k) :
    (env.attemptA.isNonNetworkFail = true →
        upload_image env image_path
          = upload_image_multipart_fallback env image_path)
  ∧ (env.attemptA = .requestExc m →
        upload_image env image_path = .error ("Network error: " ++ m))
  ∧ (env.attemptA.isNonNetworkFail = true →
      env.attemptB.isFail = true →
      ∃ r, upload_image env image_path
        = .error ("Both upload methods failed: " ++ r)) := by
  obtain ⟨k, hk⟩ := hk
  have hfall : env.attemptA.isNonNetworkFail = true →
      upload_image env image_path
        = upload_image_multipart_fallback env image_path := by
    intro ha
    cases henvA : env.attemptA <;>
      simp_all [upload_image, runAttemptA, UploadAttemptResult.isNonNetworkFail]
  refine ⟨hfall, ?_, ?_⟩
  · intro ha
    simp [upload_image, hf, hk, ha, runAttemptA]
  · intro ha hb
    rw [hfall ha]
    cases henvB : env.attemptB <;>
      simp_all [upload_image_multipart_fallback, UploadAttemptResult.isFail,
        hf, hk] <;>
      exact ⟨_, rfl⟩

theorem upload_fallback_discipline_witness :
    upload_image ⟨true, some "k", .httpError 500 "boom",
        .httpError 502 "bad"⟩ "img.png"
      = upload_image_multipart_fallback ⟨true, some "k", .httpError 500 "boom",
          .httpError 502 "bad"⟩ "img.png"
    ∧ ∃ r, upload_image ⟨true, some "k", .httpError 500 "boom",
          .httpError 502 "bad"⟩ "img.png"
        = .error ("Both upload methods failed: " ++ r) :=
  ⟨(upload_fallback_discipline ⟨true, some "k", .httpError 500 "boom",
      .httpError 502 "bad"⟩ "img.png" "x" rfl ⟨"k", rfl⟩).1 rfl,
   (upload_fallback_discipline ⟨true, some "k", .httpError 500 "boom",
      .httpError 502 "bad"⟩ "img.png" "x" rfl ⟨"k", rfl⟩).2.2 rfl rfl⟩

/-- **C6**: the cleanup endpoint deletes whichever of the two artifacts
are present and reports the number removed: exactly 1 when exactly one
exists, 0 when neither exists; afterwards neither artifact exists. -/
theorem cleanup_reports_present_artifacts (png npy : Bool) (file_id : String) :
    (png ≠ npy → (cleanup_files png npy file_id).files_deleted = 1)
  ∧ (png = false → npy = false →
      (cleanup_files png npy file_id).files_deleted = 0)
  ∧ (cleanup_files png npy file_id).pngExistsAfter = false
  ∧ (cleanup_files png npy file_id).npyExistsAfter = false := by
  cases png <;> cases npy <;> simp [cleanup_files, cleanup_file]

theorem cleanup_reports_present_artifacts_witness :
    (cleanup_files true false "tok").files_deleted = 1
  ∧ (cleanup_files false false "tok").files_deleted = 0 :=
  ⟨(cleanup_reports_present_artifacts true false "tok").1 (by decide),
   (cleanup_reports_present_artifacts false false "tok").2.1 rfl rfl⟩

/-- **C7**: when the API key cannot be resolved (unset or empty), and the
image file exists, `upload_image` fails with the configuration error —
whatever the outcomes of the two network strategies would have been,
i.e. before attempting any network call. -/
theorem upload_missing_key_is_config_error (image_path : String)
    (key : Option String) (a b : UploadAttemptResult)
    (hk : key = none ∨ key = some "") :
    upload_image ⟨true, key, a, b⟩ image_path
      = .error "IMG_API_KEY not found in .env file" := by
  rcases hk with rfl | rfl <;> simp [upload_image, get_api_key]

theorem upload_missing_key_is_config_error_witness :
    upload_image ⟨true, none, .ok "https://u", .ok "https://u"⟩ "img.png"
      = .error "IMG_API_KEY not found in .env file" :=
  upload_missing_key_is_config_error "img.png" none (.ok "https://u")
    (.ok "https://u") (Or.inl rfl)

/-- **C8**: `colorize` is deterministic: two runs on identical input
(with the same fixed colormap) produce identical output. -/
theorem colorize_deterministic (cmap : ℚ → ℚ × ℚ × ℚ × ℚ)
    (d1 d2 : List (List ℚ)) (h : d1 = d2) :
    colorize cmap d1 = colorize cmap d2 := by
  rw [h]

theorem colorize_deterministic_witness :
    colorize sampleCmap [[0, 1]] = colorize sampleCmap [[0, 1]] :=
  colorize_deterministic sampleCmap [[0, 1]] [[0, 1]] rfl

theorem foldl_min_const (v : ℚ) :
    ∀ l : List ℚ, (∀ x ∈ l, x = v) → l.foldl min v = v
  | [], _ => rfl
  | a :: t, h => by
      have ha : a = v := h a (List.mem_cons_self a t)
      have hstep : (a :: t).foldl min v = t.foldl min (min v a) := rfl
      rw [hstep, ha, min_self]
      exact foldl_min_const v t fun x hx => h x (List.mem_cons_of_mem a hx)

theorem foldl_max_const (v : ℚ) :
    ∀ l : List ℚ, (∀ x ∈ l, x = v) → l.foldl max v = v
  | [], _ => rfl
  | a :: t, h => by
      have ha : a = v := h a (List.mem_cons_self a t)
      have hstep : (a :: t).foldl max v = t.foldl max (max v a) := rfl
      rw [hstep, ha, max_self]
      exact foldl_max_const v t fun x hx => h x (List.mem_cons_of_mem a hx)

/-- **C9**: `colorize` normalizes by dividing by `max - min` with no
guard, so on any nonempty constant depth array (a 1x1 array included)
the divisor is zero and the normalization is undefined (`none`) instead
of a valid color image. -/
theorem colorize_constant_is_undefined (cmap : ℚ → ℚ × ℚ × ℚ × ℚ)
    (d : List (List ℚ)) (v : ℚ)
    (hne : d.flatten ≠ [])
    (hconst : ∀ x ∈ d.flatten, x = v) :
    colorize cmap d = none := by
  cases hflat : d.flatten with
  | nil => exact absurd hflat hne
  | cons a t =>
      have hav : a = v := hconst a (by rw [hflat]; exact List.mem_cons_self a t)
      have htv : ∀ x ∈ t, x = v := fun x hx =>
        hconst x (by rw [hflat]; exact List.mem_cons_of_mem a hx)
      have hmin : (a :: t).min? = some v := by
        rw [show (a :: t).min? = some (t.foldl min a) from rfl, hav,
          foldl_min_const v t htv]
      have hmax : (a :: t).max? = some v := by
        rw [show (a :: t).max? = some (t.foldl max a) from rfl, hav,
          foldl_max_const v t htv]
      simp only [colorize, hflat, hmin, hmax]
      simp

theorem colorize_constant_is_undefined_witness :
    ([[(5 : ℚ)]].flatten ≠ []) ∧ colorize sampleCmap [[(5 : ℚ)]] = none :=
  ⟨by decide,
   colorize_constant_is_undefined sampleCmap [[(5 : ℚ)]] 5 (by decide)
     (by decide)⟩

/-- **C2**: the predict endpoint's validation gates run in this order —
model availability (503), payload-size ceiling (413), extension
allow-list (400) — and each failing gate short-circuits the request
before any file is written. -/
theorem predict_validation_gates (env : PredictEnv) :
    (env.modelLoaded = false →
      (predict env).response
          = .error ⟨503, "Depth estimation model is not available"⟩
        ∧ (predict env).inputWritten = false)
  ∧ (env.modelLoaded = true → env.contentSize > MAX_FILE_SIZE →
      (predict env).response
          = .error ⟨413, "File too large. Maximum size is 10MB"⟩
        ∧ (predict env).inputWritten = false)
  ∧ (env.modelLoaded = true → env.contentSize ≤ MAX_FILE_SIZE →
      fileExtLower env.filename ∉ ALLOWED_EXTENSIONS →
      (predict env).response
          = .error ⟨400,
              "Invalid file type. Allowed types: .jpg, .jpeg, .png, .bmp, .tiff"⟩
        ∧ (predict env).inputWritten = false) := by
  refine ⟨?_, ?_, ?_⟩
  · intro h1
    simp [predict, h1]
  · intro h1 h2
    simp [predict, h1, h2]
  · intro h1 h2 h3
    simp [predict, h1, Nat.not_lt.mpr h2, h3]

theorem predict_validation_gates_witness :
    ((predict ⟨false, 0, "a.jpg", "t", false, ⟨true, true, true⟩,
        .ok "u"⟩).response
      = .error ⟨503, "Depth estimation model is not available"⟩)
  ∧ ((predict ⟨true, 10485761, "a.jpg", "t", false, ⟨true, true, true⟩,
        .ok "u"⟩).response
      = .error ⟨413, "File too large. Maximum size is 10MB"⟩)
  ∧ ((predict ⟨true, 100, "a.gif", "t", false, ⟨true, true, true⟩,
        .ok "u"⟩).response
      = .error ⟨400,
          "Invalid file type. Allowed types: .jpg, .jpeg, .png, .bmp, .tiff"⟩)
  ∧ ((predict ⟨true, 100, "a.gif", "t", false, ⟨true, true, true⟩,
        .ok "u"⟩).inputWritten = false) :=
  ⟨((predict_validation_gates _).1 rfl).1,
   ((predict_validation_gates _).2.1 rfl (by decide)).1,
   ((predict_validation_gates _).2.2 rfl (by decide) (by decide)).1,
   ((predict_validation_gates _).2.2 rfl (by decide) (by decide)).2⟩

/-- **C3**: for every request whose input scratch copy was written (the
request passed validation), the scratch file is absent once the request
finishes — on success, on inference failure, and on unexpected
exceptions alike. -/
theorem predict_input_scratch_deleted (env : PredictEnv)
    (_h : (predict env).inputWritten = true) :
    (predict env).inputExistsAfter = false := by
  simp only [predict]
  repeat' split
  all_goals rfl

theorem predict_input_scratch_deleted_witness :
    (predict ⟨true, 100, "photo.jpg", "tok1", false, ⟨true, true, true⟩,
        .error "boom"⟩).inputWritten = true
  ∧ (predict ⟨true, 100, "photo.jpg", "tok1", false, ⟨true, true, true⟩,
        .error "boom"⟩).inputExistsAfter = false :=
  ⟨rfl, predict_input_scratch_deleted _ rfl⟩

theorem string_eq_of_data (a b : String) (h : a.data = b.data) : a = b := by
  cases a
  cases b
  exact congrArg String.mk h

/-- The path `api.predict` builds with `os.path.join("outputs", ...)`
agrees with the flat literal used in statements. -/
theorem string_outputs_merge (t u : String) :
    "outputs/" ++ ("output_" ++ t ++ u) = "outputs/output_" ++ t ++ u := by
  apply string_eq_of_data
  rw [string_data_append, string_data_append, string_data_append,
    string_data_append, string_data_append,
    show ("outputs/output_".data : List Char)
      = "outputs/".data ++ "output_".data from rfl]
  simp [List.append_assoc]

/-- **C4**: when the depth map is generated and persisted but the upload
raises, the response still has `success = true`,
`external_url_available = false`, and carries the upload error message
as an annotation; the upload failure does not change the overall
success status. -/
theorem predict_upload_failure_nonfatal (env : PredictEnv) (m : String)
    (h1 : env.modelLoaded = true)
    (h2 : env.contentSize ≤ MAX_FILE_SIZE)
    (h3 : fileExtLower env.filename ∈ ALLOWED_EXTENSIONS)
    (h4 : env.inputWriteRaises = false)
    (h5 : env.depth.inferOk = true)
    (h6 : env.depth.colorSaveOk = true)
    (h7 : env.depth.npySaveOk = true)
    (h8 : env.upload = .error m) :
    ∃ r, (predict env).response = .ok r
      ∧ r.success = true
      ∧ r.external_url_available = false
      ∧ r.upload_error = some m := by
  simp [predict, h1, Nat.not_lt.mpr h2, h3, h4, h8, calculate_depthmap,
    h5, h6, h7, strTruthy]

theorem predict_upload_failure_nonfatal_witness :
    ∃ r, (predict ⟨true, 100, "photo.jpg", "tok1", false, ⟨true, true, true⟩,
        .error "HTTP Error 500"⟩).response = .ok r
      ∧ r.success = true
      ∧ r.external_url_available = false
      ∧ r.upload_error = some "HTTP Error 500" :=
  predict_upload_failure_nonfatal _ "HTTP Error 500" rfl (by decide)
    (by decide) rfl rfl rfl rfl rfl

/-- **C5**: for every successful job whose token contains no dot (as the
`uuid4` tokens the endpoint generates do), both artifacts
`outputs/output_<t>.png` and `outputs/output_<t>_raw.npy` were written,
the response reports the raw file as available, and the raw path is the
colorized path with the `.png` extension replaced by the `_raw.npy`
suffix — on such paths the substring derivation of `calculate_depthmap`
coincides with extension replacement. -/
theorem predict_artifact_pair (env : PredictEnv)
    (h1 : env.modelLoaded = true)
    (h2 : env.contentSize ≤ MAX_FILE_SIZE)
    (h3 : fileExtLower env.filename ∈ ALLOWED_EXTENSIONS)
    (h4 : env.inputWriteRaises = false)
    (h5 : env.depth.inferOk = true)
    (h6 : env.depth.colorSaveOk = true)
    (h7 : env.depth.npySaveOk = true)
    (ht : ∀ c ∈ env.file_id.data, c ≠ '.') :
    ("outputs/output_" ++ env.file_id ++ ".png") ∈ (predict env).outputFiles
  ∧ ("outputs/output_" ++ env.file_id ++ "_raw.npy")
      ∈ (predict env).outputFiles
  ∧ rawPathOf ("outputs/output_" ++ env.file_id ++ ".png")
      = "outputs/output_" ++ env.file_id ++ "_raw.npy"
  ∧ ∃ r, (predict env).response = .ok r ∧ r.raw_data_available = true := by
  have hraw := rawPathOf_token env.file_id ht
  have hfiles : (predict env).outputFiles
      = ["outputs/output_" ++ env.file_id ++ ".png",
         "outputs/output_" ++ env.file_id ++ "_raw.npy"] := by
    simp [predict, h1, Nat.not_lt.mpr h2, h3, h4, calculate_depthmap,
      h5, h6, h7, string_outputs_merge, hraw]
  refine ⟨?_, ?_, hraw, ?_⟩
  · rw [hfiles]
    simp
  · rw [hfiles]
    simp
  · simp [predict, h1, Nat.not_lt.mpr h2, h3, h4, calculate_depthmap,
      h5, h6, h7, string_outputs_merge, hraw]

theorem predict_artifact_pair_witness :
    ("outputs/output_tok1.png")
        ∈ (predict ⟨true, 100, "photo.jpg", "tok1", false, ⟨true, true, true⟩,
            .ok "u"⟩).outputFiles
  ∧ ("outputs/output_tok1_raw.npy")
        ∈ (predict ⟨true, 100, "photo.jpg", "tok1", false, ⟨true, true, true⟩,
            .ok "u"⟩).outputFiles := by
  have h := predict_artifact_pair
    ⟨true, 100, "photo.jpg", "tok1", false, ⟨true, true, true⟩, .ok "u"⟩
    rfl (by decide) (by decide) rfl rfl rfl rfl (by decide)
  exact ⟨by simpa using h.1, by simpa using h.2.1⟩

end DepthEstimation

